import Mathlib

set_option maxRecDepth 10000

/-!
# Verification of the ADR-Master ADR lifecycle core

A shallow embedding, in Lean 4, of the ADR (Architecture Decision Record)
lifecycle subsystem of the ADR-Master repository:

* `app/services/adr_service.py` — slug/number allocation (`_generate_slug`,
  `_get_next_adr_number`), MADR template rendering (`_generate_madr_content`),
  file-based linting (`lint_adr`), draft creation (`create_draft`) and
  promotion (`promote_adr`);
* `app/services/llm_service.py` — the background compilation runner
  (`compile_adr`) and the LLM call wrapper (`_call_llm`);
* `app/services/job_service.py` — the alternate job model operations
  (`update_job_status`, `cancel_job`);
* `app/services/lint_service.py` — structured-record linting
  (`LintService.lint_adr`).

Strings are modelled as `List Char` (`Str`).  Python character classes
(`\s`, `\d`, `\w`) are modelled at ASCII semantics.  The filesystem is an
association list from paths to file contents; the database session is
explicit state.  External collaborators (the HTTP client, the SHA-256
digest) are abstract parameters.  All definitions are executable.
-/

/-- Strings as lists of characters. -/
abbrev Str := List Char

/-- Python `\s` (ASCII): space, tab, newline, carriage return, vertical tab,
form feed. -/
def pyIsSpace (c : Char) : Bool :=
  c == ' ' || c == '\t' || c == '\n' || c == '\r' || c == '\x0b' || c == '\x0c'

/-- Python `\d` (ASCII): decimal digits. -/
def pyIsDigit (c : Char) : Bool :=
  48 ≤ c.toNat && c.toNat ≤ 57

/-- ASCII letters (the code points of `A`-`Z` and `a`-`z`). -/
def pyIsAlpha (c : Char) : Bool :=
  (65 ≤ c.toNat && c.toNat ≤ 90) || (97 ≤ c.toNat && c.toNat ≤ 122)

/-- Python `\w` (ASCII): letters, digits, underscore. -/
def pyIsWord (c : Char) : Bool :=
  pyIsAlpha c || pyIsDigit c || c == '_'

/-- Python `str.strip()` — remove leading and trailing whitespace only;
interior whitespace is kept. -/
def pyStrip (s : Str) : Str :=
  ((s.dropWhile pyIsSpace).reverse.dropWhile pyIsSpace).reverse

/-- Python `str.strip("-")` — remove leading and trailing hyphens. -/
def pyStripDash (s : Str) : Str :=
  ((s.dropWhile (· == '-')).reverse.dropWhile (· == '-')).reverse

namespace ADRService

/-- A character kept by `re.sub(r"[^\w\s-]", "", slug)`. -/
def keepSlugChar (c : Char) : Bool :=
  pyIsWord c || pyIsSpace c || c == '-'

/-- Is the character part of a `[-\s]+` run? -/
def isDashSpace (c : Char) : Bool :=
  c == '-' || pyIsSpace c

/-- `re.sub(r"[-\s]+", "-", s)`: each maximal run of hyphens/whitespace is
replaced by a single hyphen.  The flag records whether the previous character
was part of such a run. -/
def collapseDashSpace : Bool → Str → Str
  | _, [] => []
  | inRun, c :: rest =>
    if isDashSpace c then
      if inRun then collapseDashSpace true rest
      else '-' :: collapseDashSpace true rest
    else c :: collapseDashSpace false rest

/-- `ADRService._generate_slug`: lowercase, drop characters outside
`[\w\s-]`, collapse `[-\s]+` runs to single hyphens, strip hyphens. -/
def generate_slug (title : Str) : Str :=
  pyStripDash (collapseDashSpace false ((title.map Char.toLower).filter keepSlugChar))

/-- The digit character for `d < 10`. -/
def digitChar (d : Nat) : Char := Char.ofNat (48 + d)

/-- Python `f"{number:03d}"`: the decimal representation, zero-padded to at
least three characters.  For `n < 1000` this is exactly the three decimal
digits of `n`; larger numbers print at full width (no truncation). -/
def format03d (n : Nat) : Str :=
  if n < 1000 then [digitChar (n / 100), digitChar (n / 10 % 10), digitChar (n % 10)]
  else Nat.toDigits 10 n

/-- The numeric value of a digit character. -/
def charVal (c : Char) : Nat := c.toNat - 48

/-- `re.match(r"^(\d{3})-", name)`: exactly three leading digits followed by
a hyphen; the parsed group as a number. -/
def parseNNN : Str → Option Nat
  | a :: b :: c :: d :: _ =>
    if pyIsDigit a && pyIsDigit b && pyIsDigit c && d == '-' then
      some (100 * charVal a + 10 * charVal b + charVal c)
    else none
  | _ => none

/-- `ADRService._get_next_adr_number`: collect the `*.md` files of the final
directory and of the draft directory, parse the `^(\d{3})-` prefix of each
name, and return the maximum (default 0) plus one. -/
def get_next_adr_number (finalFiles draftFiles : List Str) : Nat :=
  ((((finalFiles ++ draftFiles).filter
      (fun f => List.isSuffixOf ".md".toList f)).filterMap parseNNN).foldr max 0) + 1

/-- The maximum number parsed by `_get_next_adr_number` from a single list
of filenames (definitionally, `get_next_adr_number [] files =
maxParsedNumber files + 1`). -/
def maxParsedNumber (files : List Str) : Nat :=
  ((files.filter (fun f => List.isSuffixOf ".md".toList f)).filterMap parseNNN).foldr max 0

/-- The filename `f"{number:03d}-{slug}.md"` assembled by `create_draft`. -/
def draftFilename (n : Nat) (slug : Str) : Str :=
  format03d n ++ '-' :: (slug ++ ".md".toList)

/-- Writing a file into a directory: an existing entry of the same name is
overwritten, otherwise the name is added. -/
def insertFile (f : Str) (files : List Str) : List Str :=
  if f ∈ files then files else f :: files

/-- `N` consecutive single-threaded `create_draft` calls starting from empty
draft and final directories, keeping only the allocation-relevant state: the
`k`-th call slugs the title `titles k`, allocates
`get_next_adr_number` over both directories, and writes
`{number:03d}-{slug}.md` into the draft directory.  Returns the assigned
numbers in order, together with the draft-directory contents (the final
directory stays empty: no promotions, no external deletions). -/
def createDraftNumbers (titles : Nat → Str) : Nat → List Nat × List Str
  | 0 => ([], [])
  | k + 1 =>
    let (ns, files) := createDraftNumbers titles k
    let n := get_next_adr_number [] files
    (ns ++ [n], insertFile (draftFilename n (generate_slug (titles k))) files)

end ADRService

/-- The two document directories (`settings.adr_draft_dir` and
`settings.adr_dir`; concrete locations are configuration). -/
inductive Dir where
  | draft
  | final
deriving DecidableEq, Repr

/-- A file path: directory plus filename (`Path(p).name`). -/
structure FPath where
  dir : Dir
  name : Str
deriving DecidableEq, Repr

/-- The rendered path string (directory prefix plus name), as interpolated
into error messages. -/
def FPath.render (p : FPath) : Str :=
  (match p.dir with
   | .draft => "drafts/".toList
   | .final => "adr/".toList) ++ p.name

/-- The filesystem: an association list from paths to file contents. -/
abbrev FS := List (FPath × Str)

/-- `Path(p).exists()` / `Path(p).read_text()`. -/
def lookupFile : FS → FPath → Option Str
  | [], _ => none
  | (q, c) :: rest, p => if q = p then some c else lookupFile rest p

/-- `Path(p).write_text(content)`: overwrite or create. -/
def writeFile : FS → FPath → Str → FS
  | [], p, c => [(p, c)]
  | (q, d) :: rest, p, c =>
    if q = p then (p, c) :: rest else (q, d) :: writeFile rest p c

/-- `Path(p).unlink()`. -/
def removeFile (fs : FS) (p : FPath) : FS :=
  fs.filter (fun e => e.1 ≠ p)

namespace ADRService

/-- `LintResult` (schema `app/schemas/adr.py`). -/
structure LintResult where
  valid : Bool
  errors : List Str
  warnings : List Str
deriving DecidableEq, Repr

/-- Does the suffix consist of `.md` at end-of-match?  `$` in a Python
regex accepts the end of the string or a position just before a final
newline. -/
def mdEnd (s : Str) : Bool :=
  s == ".md".toList || s == ".md\n".toList

/-- `.+\.md$` on a string: at least one non-newline character, then `.md`
at the end (Python `.` does not match a newline without `DOTALL`). -/
def dotPlusMd : Str → Bool
  | [] => false
  | c :: rest => c != '\n' && (mdEnd rest || dotPlusMd rest)

/-- `re.match(r"^\d{3}-.+\.md$", name)`: three digits, a hyphen, then at
least one non-newline character, then `.md` at the end. -/
def filenameMatch : Str → Bool
  | a :: b :: c :: d :: rest =>
    pyIsDigit a && pyIsDigit b && pyIsDigit c && d == '-' && dotPlusMd rest
  | _ => false

/-- The five required MADR section names checked by `lint_adr`. -/
def requiredSections : List Str :=
  ["Status".toList, "Context".toList, "Decision".toList,
   "Consequences".toList, "References".toList]

/-- Python `pat in s`: substring containment. -/
def pyInStr (pat s : Str) : Bool := decide (pat <:+: s)

/-- The `Missing required section:` errors, in check order.  The check is a
plain substring test of the heading `## ` plus the section name. -/
def sectionErrors (content : Str) : List Str :=
  (requiredSections.filter
      (fun s => !pyInStr ("## ".toList ++ s) content)).map
    (fun s => "Missing required section: ".toList ++ s)

/-- Attempt `re` match of `## Status\s+(\w+)` anchored at the start of `s`;
returns the `(\w+)` group.  `\s+` greedily takes the maximal whitespace run
(no shorter run can be followed by a word character), then `\w+` takes the
maximal word-character run, which must be non-empty. -/
def statusAt (s : Str) : Option Str :=
  if List.isPrefixOf "## Status".toList s then
    let rest := s.drop 9
    let ws := rest.takeWhile pyIsSpace
    let w := (rest.dropWhile pyIsSpace).takeWhile pyIsWord
    if ws.isEmpty || w.isEmpty then none else some w
  else none

/-- `re.search(r"## Status\s+(\w+)", content)`: the group of the leftmost
match. -/
def statusSearch : Str → Option Str
  | [] => none
  | c :: rest =>
    match statusAt (c :: rest) with
    | some w => some w
    | none => statusSearch rest

/-- The accepted values for the `## Status` section. -/
def allowedStatus (w : Str) : Bool :=
  w == "Draft".toList || w == "Accepted".toList ||
  w == "Superseded".toList || w == "Deprecated".toList

/-- The shortest non-empty prefix of a non-empty string after which the
lookahead `(?=\n##|\Z)` holds: the lazy group `(.+?)` of the decision
regex. -/
def lazyBody : Str → Str
  | [] => []
  | c :: rest =>
    if rest.isEmpty || List.isPrefixOf "\n##".toList rest then [c]
    else c :: lazyBody rest

/-- Attempt `re` match of `## Decision\s+(.+?)(?=\n##|\Z)` (with `DOTALL`)
anchored at the start of `s`; returns the group.  `\s+` first takes the
maximal whitespace run; if nothing follows it, the engine backtracks and
gives the final whitespace character to the lazy group (possible only when
the run has length at least two). -/
def decisionAt (s : Str) : Option Str :=
  if List.isPrefixOf "## Decision".toList s then
    let rest := s.drop 11
    let ws := rest.takeWhile pyIsSpace
    let body := rest.dropWhile pyIsSpace
    if ws.isEmpty then none
    else if body.isEmpty then
      if 2 ≤ ws.length then some [ws.getLastD ' '] else none
    else some (lazyBody body)
  else none

/-- `re.search(r"## Decision\s+(.+?)(?=\n##|\Z)", content, re.DOTALL)`:
the group of the leftmost match. -/
def decisionSearch : Str → Option Str
  | [] => none
  | c :: rest =>
    match decisionAt (c :: rest) with
    | some g => some g
    | none => decisionSearch rest

/-- The content checks of `ADRService.lint_adr` on an existing file: filename
format, required sections, status value, decision summary length.  `valid`
is `errors == []`; the decision-length check only ever emits a warning. -/
def lintContent (name : Str) (content : Str) : LintResult :=
  let e1 := if filenameMatch name then []
            else ["Filename must match format: NNN-title.md".toList]
  let e2 := sectionErrors content
  let e3 := match statusSearch content with
            | some w =>
              if allowedStatus w then [] else ["Invalid status: ".toList ++ w]
            | none => ["Could not find status value".toList]
  let w1 := match decisionSearch content with
            | some g =>
              let firstLine := (pyStrip g).takeWhile (· != '\n')
              if 280 < firstLine.length then
                ["Decision summary exceeds 280 characters".toList]
              else []
            | none => []
  let errors := e1 ++ e2 ++ e3
  ⟨errors.isEmpty, errors, w1⟩

/-- `ADRService.lint_adr`: a missing file short-circuits to a single
`File not found` error with no warnings and no further checks. -/
def lint_adr (fs : FS) (p : FPath) : LintResult :=
  match lookupFile fs p with
  | none => ⟨false, ["File not found: ".toList ++ p.render], []⟩
  | some content => lintContent p.name content

end ADRService

namespace ADRService

/-- Python truthiness of an optional string (`None` and `""` are falsy). -/
def strTruthy : Option Str → Bool
  | none => false
  | some s => !s.isEmpty

/-- `ADRService._generate_madr_content`.  The current date (from
`datetime.now().strftime("%Y-%m-%d")`) is passed explicitly.  Falsy optional
inputs are replaced by the bracketed placeholder blocks of the template. -/
def generate_madr_content (number : Nat) (title problem context : Str)
    (options decision_hint : Option Str) (references : Option (List Str))
    (date : Str) : Str :=
  "# ".toList ++ Nat.toDigits 10 number ++ ". ".toList ++ title ++
  "\n\nDate: ".toList ++ date ++
  "\n\n## Status\n\nDraft\n\n## Context\n\n".toList ++ context ++
  "\n\n## Problem Statement\n\n".toList ++ problem ++
  "\n\n## Decision Drivers\n\n* Maintainability\n* Performance\n* Security\n* Developer experience\n\n## Considered Options\n\n".toList ++
  (match options with
   | some o => if o.isEmpty then "* Option 1: [To be filled]\n* Option 2: [To be filled]\n\n".toList
               else o ++ "\n\n".toList
   | none => "* Option 1: [To be filled]\n* Option 2: [To be filled]\n\n".toList) ++
  "## Decision Outcome\n\n".toList ++
  (match decision_hint with
   | some h => if h.isEmpty then "[Decision to be made after analysis]\n\n".toList
               else h ++ "\n\n".toList
   | none => "[Decision to be made after analysis]\n\n".toList) ++
  "### Consequences\n\n* Good: [To be filled]\n* Bad: [To be filled]\n* Neutral: [To be filled]\n\n## Pros and Cons of the Options\n\n### Option 1\n\n* Good: [To be filled]\n* Bad: [To be filled]\n\n## More Information\n\n".toList ++
  (match references with
   | some refs =>
     if refs.isEmpty then "[Additional references and context]".toList
     else List.intercalate "\n".toList (refs.map (fun r => "* ".toList ++ r))
   | none => "[Additional references and context]".toList) ++
  "\n\n## References\n\n[Links to related ADRs, documentation, or external resources]\n".toList

/-- Length of the match of `## Status\s+Draft` anchored at the start of `s`,
if any: the literal `## Status`, then a non-empty maximal whitespace run
(backtracking to a shorter run cannot help, a whitespace character never
starts `Draft`), then the literal `Draft`. -/
def statusDraftMatchLen (s : Str) : Option Nat :=
  if List.isPrefixOf "## Status".toList s then
    let rest := s.drop 9
    let ws := rest.takeWhile pyIsSpace
    if ws.isEmpty then none
    else if List.isPrefixOf "Draft".toList (rest.drop ws.length) then
      some (9 + ws.length + 5)
    else none
  else none

/-- Is there a match of `## Status\s+Draft` anywhere in `s`? -/
def hasStatusDraftMatch : Str → Bool
  | [] => false
  | c :: rest => (statusDraftMatchLen (c :: rest)).isSome || hasStatusDraftMatch rest

/-- One fuelled step list of `re.sub`: scan left to right; at a match,
emit the replacement `## Status\n\nAccepted` and continue after the matched
text (non-overlapping); otherwise emit the character and move on.  Each match
consumes at least one character, so fuel `s.length` always suffices. -/
def reSubAux : Nat → Str → Str
  | 0, s => s
  | fuel + 1, s =>
    match s with
    | [] => []
    | c :: rest =>
      match statusDraftMatchLen (c :: rest) with
      | some k => "## Status\n\nAccepted".toList ++ reSubAux fuel ((c :: rest).drop k)
      | none => c :: reSubAux fuel rest

/-- `re.sub(r"## Status\s+Draft", "## Status\n\nAccepted", content)`. -/
def reSubStatusDraft (s : Str) : Str := reSubAux s.length s

/-- `ADRMetadata` (`app/models/base.py`), allocation-relevant fields. -/
structure ADRMetadata where
  file_path : FPath
  title : Str
  slug : Str
  status : Str
  sha256 : Str
deriving DecidableEq, Repr

/-- An `ActionLog` entry (`app/models/base.py`). -/
structure ActionLog where
  action : Str
  sha256 : Str
deriving DecidableEq, Repr

/-- The state touched by `promote_adr`: both document directories, the
metadata table, and the audit log. -/
structure PromoteState where
  fs : FS
  metadata : List ADRMetadata
  logs : List ActionLog
deriving DecidableEq, Repr

/-- The exceptions `promote_adr` raises. -/
inductive PromoteError where
  | notFound (path : FPath)
  | lintFailed (errors : List Str)
deriving DecidableEq, Repr

/-- `db.query(ADRMetadata).filter_by(file_path=src).first()` followed by the
in-place update of path, status and hash: rewrite the first matching
record. -/
def updateMetadata : List ADRMetadata → FPath → FPath → Str → List ADRMetadata
  | [], _, _, _ => []
  | m :: rest, src, tgt, h =>
    if m.file_path = src then
      { m with file_path := tgt, status := "Accepted".toList, sha256 := h } :: rest
    else m :: updateMetadata rest src tgt h

/-- `ADRService.promote_adr`, with the SHA-256 digest abstracted as `hash`.
Raising an exception leaves the state exactly as it was (nothing is written
before either `raise`). -/
def promote_adr (hash : Str → Str) (st : PromoteState) (draft_path : FPath) :
    Except PromoteError FPath × PromoteState :=
  match lookupFile st.fs draft_path with
  | none => (.error (.notFound draft_path), st)
  | some content =>
    let lintResult := lint_adr st.fs draft_path
    if lintResult.valid then
      let target : FPath := ⟨.final, draft_path.name⟩
      let content' := reSubStatusDraft content
      let fs1 := writeFile st.fs target content'
      let md1 := updateMetadata st.metadata draft_path target (hash content')
      let logs1 := st.logs ++ [⟨"promote_adr".toList, hash content'⟩]
      let fs2 := removeFile fs1 draft_path
      (.ok target, ⟨fs2, md1, logs1⟩)
    else (.error (.lintFailed lintResult.errors), st)

end ADRService

namespace LLMService

/-- `CompilationJob` (`app/models/base.py`), the fields `compile_adr`
touches. -/
structure CompilationJob where
  job_id : Str
  draft_path : FPath
  status : Str
  logs : List Str
  output_path : Option FPath
  error_message : Option Str
deriving DecidableEq, Repr

/-- Outcome of the Ollama-style POST inside its own `try` block: an
exception (timeout, connection error, malformed JSON), or a response with a
status code and the optional `response` JSON field. -/
inductive OllamaOutcome where
  | raised
  | resp (statusCode : Nat) (responseField : Option Str)
deriving DecidableEq, Repr

/-- Outcome of the fallback OpenAI-style POST inside its own `try` block:
an exception, or a response with the extracted
`choices[0].message.content` (`none` models a missing key, whose `KeyError`
is caught by the same handler as a transport exception). -/
inductive OpenAIOutcome where
  | raised
  | resp (statusCode : Nat) (contentField : Option Str)
deriving DecidableEq, Repr

/-- The transport environment of one `_call_llm` invocation.  `clientFails`
models an exception outside the two per-endpoint `try` blocks (for example
while constructing the HTTP client), which the outermost handler converts
to `None`. -/
structure LLMWorld where
  clientFails : Bool
  ollama : OllamaOutcome
  openai : OpenAIOutcome

/-- The note appended when both endpoints fail. -/
def llmNote : Str := "\n\n<!-- LLM enhancement unavailable -->\n".toList

/-- `LLMService._call_llm`: try the Ollama endpoint (a 200 answer returns
the `response` field, defaulting to the original content); on exception or
non-200 fall through to the OpenAI-compatible endpoint; if that also fails,
return the original content with an `LLM enhancement unavailable` note.
Only an exception outside both inner handlers yields `None`. -/
def call_llm (w : LLMWorld) (content : Str) : Option Str :=
  if w.clientFails then none
  else
    match w.ollama with
    | .resp 200 f => some (f.getD content)
    | _ =>
      match w.openai with
      | .resp 200 (some c) => some c
      | _ => some (content ++ llmNote)

/-- `LLMService.compile_adr`: the background compilation runner, acting on
the looked-up job row and the filesystem.  A missing job is a silent no-op;
a missing draft or a falsy LLM result (None or empty string) takes the
exception path, which marks the job failed and leaves the draft unchanged;
otherwise the draft is overwritten and the job completed. -/
def compile_adr (w : LLMWorld) (jobRow : Option CompilationJob) (fs : FS) :
    Option CompilationJob × FS :=
  match jobRow with
  | none => (none, fs)
  | some job =>
    let j1 := { job with status := "running".toList,
                         logs := job.logs ++ ["Starting compilation...".toList] }
    match lookupFile fs job.draft_path with
    | none =>
      let msg := "Draft not found: ".toList ++ job.draft_path.render
      (some { j1 with status := "failed".toList, error_message := some msg,
                      logs := j1.logs ++ ["Error: ".toList ++ msg] }, fs)
    | some content =>
      let j2 := { j1 with logs := j1.logs ++ ["Sending to LLM...".toList] }
      match call_llm w content with
      | some improved =>
        if improved.isEmpty then
          let msg := "LLM returned empty response".toList
          (some { j2 with status := "failed".toList, error_message := some msg,
                          logs := j2.logs ++ ["Error: ".toList ++ msg] }, fs)
        else
          (some { j2 with status := "completed".toList,
                          output_path := some job.draft_path,
                          logs := j2.logs ++ ["LLM processing complete".toList,
                                              "Draft updated successfully".toList] },
           writeFile fs job.draft_path improved)
      | none =>
        let msg := "LLM returned empty response".toList
        (some { j2 with status := "failed".toList, error_message := some msg,
                        logs := j2.logs ++ ["Error: ".toList ++ msg] }, fs)

end LLMService

namespace JobService

/-- `JobStatus` (`app/models/job.py`). -/
inductive JobStatus where
  | pending
  | running
  | completed
  | failed
  | cancelled
deriving DecidableEq, Repr

/-- `Job` (`app/models/job.py`), the fields the service operations touch. -/
structure Job where
  status : JobStatus
  output_data : Option Str
  error_message : Option Str
  started_at : Option Nat
  completed_at : Option Nat
deriving DecidableEq, Repr

/-- `JobService.update_job_status` on a found job row (`now` stands for
`datetime.utcnow()`): the status is assigned unconditionally; `started_at`
is set when entering `running` for the first time; `completed_at` is set on
any of the three terminal statuses; truthy `output_data`/`error_message`
overwrite the stored fields. -/
def update_job_status (job : Job) (status : JobStatus)
    (output_data error_message : Option Str) (now : Nat) : Job :=
  let j1 := { job with status := status }
  let j2 := if status = JobStatus.running ∧ j1.started_at = none then
              { j1 with started_at := some now } else j1
  let j3 := if status = JobStatus.completed ∨ status = JobStatus.failed ∨
               status = JobStatus.cancelled then
              { j2 with completed_at := some now } else j2
  let j4 := if ADRService.strTruthy output_data then
              { j3 with output_data := output_data } else j3
  if ADRService.strTruthy error_message then
    { j4 with error_message := error_message } else j4

/-- `JobService.cancel_job`: fails on a missing job or one already in a
terminal status (`completed`, `failed`, `cancelled`); otherwise marks the
job `cancelled`, stamps `completed_at`, and reports success. -/
def cancel_job (jobRow : Option Job) (now : Nat) : Bool × Option Job :=
  match jobRow with
  | none => (false, none)
  | some job =>
    if job.status = JobStatus.completed ∨ job.status = JobStatus.failed ∨
       job.status = JobStatus.cancelled then
      (false, some job)
    else
      (true, some { job with status := JobStatus.cancelled,
                             completed_at := some now })

end JobService

namespace LintService

/-- The structured `ADR` record (`app/models/adr.py`), the nullable text
fields the structured lint reads. -/
structure ADR where
  title : Option Str
  context : Option Str
  decision : Option Str
  consequences : Option Str
deriving DecidableEq, Repr

/-- `LintIssue` (`app/services/lint_service.py`). -/
structure LintIssue where
  severity : Str
  message : Str
  field : Option Str
deriving DecidableEq, Repr

/-- The fixed vague-language word list, in scan order. -/
def vagueWords : List Str :=
  ["maybe".toList, "probably".toList, "possibly".toList,
   "might".toList, "could".toList, "should".toList]

/-- The first vague word occurring as a substring of the lowercased decision
text (the loop breaks at the first hit). -/
def firstVague : List Str → Str → Option Str
  | [], _ => none
  | w :: ws, d => if ADRService.pyInStr w d then some w else firstVague ws d

/-- `LintService.lint_adr`.  The passive-voice ratio test
(`_has_excessive_passive_voice`, a floating-point comparison
`count > len(words) * 0.15`) is abstracted as the predicate `passive`; it
only ever contributes an `info` issue.  All length checks use Python `len`
of the raw or `strip()`ped text: `strip` removes leading and trailing
whitespace only, so interior whitespace counts toward the thresholds. -/
def lint_adr (passive : Str → Bool) (adr : ADR) : List LintIssue :=
  let titleErr :=
    if !ADRService.strTruthy adr.title || (adr.title.getD []).length < 10 then
      [⟨"error".toList, "Title must be at least 10 characters long".toList,
        some "title".toList⟩]
    else []
  let titleWarn :=
    if ADRService.strTruthy adr.title && 100 < (adr.title.getD []).length then
      [⟨"warning".toList, "Title should be concise (under 100 characters)".toList,
        some "title".toList⟩]
    else []
  let ctxErr :=
    if !ADRService.strTruthy adr.context || (pyStrip (adr.context.getD [])).length < 50 then
      [⟨"error".toList,
        "Context section must be at least 50 characters and explain the problem".toList,
        some "context".toList⟩]
    else []
  let decErr :=
    if !ADRService.strTruthy adr.decision || (pyStrip (adr.decision.getD [])).length < 50 then
      [⟨"error".toList,
        "Decision section must be at least 50 characters and clearly state the decision".toList,
        some "decision".toList⟩]
    else []
  let consWarn :=
    if !ADRService.strTruthy adr.consequences || (pyStrip (adr.consequences.getD [])).length < 30 then
      [⟨"warning".toList,
        "Consequences section should describe the impact of the decision".toList,
        some "consequences".toList⟩]
    else []
  let passiveInfo :=
    if ADRService.strTruthy adr.decision && passive (adr.decision.getD []) then
      [⟨"info".toList,
        "Consider using more active voice in the decision section".toList,
        some "decision".toList⟩]
    else []
  let vagueWarn :=
    match firstVague vagueWords ((adr.decision.getD []).map Char.toLower) with
    | some w =>
      [⟨"warning".toList,
        "Avoid vague language like \x27".toList ++ w ++ "\x27 - be decisive".toList,
        some "decision".toList⟩]
    | none => []
  titleErr ++ titleWarn ++ ctxErr ++ decErr ++ consWarn ++ passiveInfo ++ vagueWarn

end LintService

/-- The measure the specification states for the structured-record lint
thresholds: the number of non-whitespace characters of the text ("must be
at least 50 non-whitespace characters").  Stated from the spec for
comparison with the code, which instead measures `len(text.strip())`. -/
def nonWhitespaceCount (s : Str) : Nat :=
  (s.filter (fun c => !pyIsSpace c)).length

namespace LintService

/-- The error issue `lint_adr` emits for a too-short context. -/
def contextIssue : LintIssue :=
  ⟨"error".toList,
   "Context section must be at least 50 characters and explain the problem".toList,
   some "context".toList⟩

/-- The error issue `lint_adr` emits for a too-short decision. -/
def decisionIssue : LintIssue :=
  ⟨"error".toList,
   "Decision section must be at least 50 characters and clearly state the decision".toList,
   some "decision".toList⟩

/-- A structured record whose context has 60 characters after `strip()`
(10 letters, 40 interior spaces, 10 letters) but only 20 non-whitespace
characters. -/
def spacedAdr : ADR :=
  ⟨some "A sufficiently long title".toList,
   some ("aaaaaaaaaa".toList ++ List.replicate 40 ' ' ++ "aaaaaaaaaa".toList),
   some (List.replicate 60 'z'),
   some (List.replicate 40 'z')⟩

end LintService

namespace ADRService

/-- A draft lacking every MADR section, in particular `## Decision`. -/
def draftMissingDecision : FS :=
  [(⟨Dir.draft, "001-x.md".toList⟩, "# x".toList)]

/-- The promotion state holding only `draftMissingDecision`. -/
def stMissingDecision : PromoteState := ⟨draftMissingDecision, [], []⟩

/-- A content whose status line uses a single newline: the literal
`## Status\n\nDraft` does not occur in it, but the regex
`## Status\s+Draft` matches. -/
def singleNewlineContent : Str := "## Status\nDraft".toList

/-- A title made only of punctuation: no word characters. -/
def punctTitle : Str := "!!!".toList

/-- The draft path `create_draft` produces for `punctTitle` on empty
directories. -/
def punctPath : FPath := ⟨Dir.draft, "001-.md".toList⟩

/-- A title that smuggles a `## Status`-shaped line into the document
header rendered before the real Status section. -/
def injectedTitle : Str := "A ## Status Rejected".toList

/-- A fixed title sequence for exercising consecutive draft creations. -/
def seqTitles : Nat → Str := fun _ => "Use X".toList

end ADRService

namespace LLMService

/-- The transport environment of a timed-out LLM call: both endpoint POSTs
raise (`httpx` timeouts are exceptions), the client itself was constructed
fine. -/
def timeoutWorld : LLMWorld := ⟨false, .raised, .raised⟩

/-- The transport environment in which the HTTP client itself fails to
construct: `_call_llm` returns `None`. -/
def clientFailWorld : LLMWorld := ⟨true, .raised, .raised⟩

/-- A queued compilation job over the draft `001-x.md`. -/
def queuedJob : CompilationJob :=
  ⟨"job-1".toList, ⟨Dir.draft, "001-x.md".toList⟩, "queued".toList, [], none, none⟩

/-- A filesystem holding that draft with content `C`. -/
def draftFS : FS := [(⟨Dir.draft, "001-x.md".toList⟩, "C".toList)]

end LLMService

namespace JobService

/-- A job in terminal status `completed`. -/
def completedJob : Job := ⟨JobStatus.completed, none, none, some 1, some 2⟩

/-- A job in status `running`. -/
def runningJob : Job := ⟨JobStatus.running, none, none, some 1, none⟩

end JobService

/-! ## Shared helper lemmas -/

theorem pyInStr_eq_true {pat s : Str} : ADRService.pyInStr pat s = true ↔ pat <:+: s := by
  simp [ADRService.pyInStr]

theorem infix_append_left {x A : Str} (B : Str) (h : x <:+: A) : x <:+: A ++ B := by
  obtain ⟨s, t, rfl⟩ := h
  exact ⟨s, t ++ B, by simp⟩

theorem infix_append_right {x B : Str} (A : Str) (h : x <:+: B) : x <:+: A ++ B := by
  obtain ⟨s, t, rfl⟩ := h
  exact ⟨A ++ s, t, by simp⟩

/-! ## C9 — linting a missing file -/

/-- C9: for every path absent from the filesystem, `lint_adr` returns
`valid = false`, the single error `File not found: {path}` and no warnings,
without running any other check. -/
theorem claim_C9_lint_missing_file (fs : FS) (p : FPath)
    (h : lookupFile fs p = none) :
    ADRService.lint_adr fs p =
      ⟨false, ["File not found: ".toList ++ p.render], []⟩ := by
  simp [ADRService.lint_adr, h]

theorem claim_C9_witness :
    lookupFile [] ⟨Dir.draft, "001-x.md".toList⟩ = none ∧
    ADRService.lint_adr [] ⟨Dir.draft, "001-x.md".toList⟩ =
      ⟨false, ["File not found: ".toList ++ (FPath.mk Dir.draft "001-x.md".toList).render], []⟩ :=
  ⟨rfl, claim_C9_lint_missing_file [] ⟨Dir.draft, "001-x.md".toList⟩ rfl⟩

/-! ## C3 — job status monotonicity -/

/-- C3 counterexample: `update_job_status` happily moves a `completed` job
back to `running`, so the claimed monotonicity ("no operation of the job
tracker transitions a job back to queued or running after it has reached
completed or failed") fails on this concrete input. -/
theorem claim_C3_counterexample :
    JobService.completedJob.status = JobService.JobStatus.completed ∧
    (JobService.update_job_status JobService.completedJob
        JobService.JobStatus.running none none 7).status =
      JobService.JobStatus.running := by
  constructor
  · rfl
  · rfl

/-- C3 amended: `update_job_status` assigns the requested status
unconditionally — the tracker has no monotonicity guard, so a job that has
reached `completed` or `failed` can be moved back to `pending` or
`running` by a further `update_job_status` call. -/
theorem claim_C3_amended (job : JobService.Job) (status : JobService.JobStatus)
    (output_data error_message : Option Str) (now : Nat) :
    (JobService.update_job_status job status output_data error_message now).status =
      status := by
  simp only [JobService.update_job_status]
  split <;> split <;> split <;> split <;> rfl

/-! ## C7 — cancellation of a running job -/

/-- C7 counterexample: the claim says cancelling a `running` job reports
failure and leaves the job unchanged; in fact `cancel_job` only rejects the
three terminal statuses, so a `running` job is cancelled successfully and
mutated. -/
theorem claim_C7_counterexample :
    (JobService.cancel_job (some JobService.runningJob) 9).1 = true ∧
    (JobService.cancel_job (some JobService.runningJob) 9).2 ≠
      some JobService.runningJob := by
  constructor
  · rfl
  · decide

/-- C7 amended: `cancel_job` fails (returning `false` and leaving the job
unchanged) exactly on a missing job or one whose status is `completed`,
`failed` or `cancelled`; a job still `pending` — but also one already
`running` — is marked `cancelled` with `completed_at` stamped, and the call
reports success. -/
theorem claim_C7_amended (job : JobService.Job) (now : Nat) :
    (job.status = JobService.JobStatus.completed ∨
     job.status = JobService.JobStatus.failed ∨
     job.status = JobService.JobStatus.cancelled →
      JobService.cancel_job (some job) now = (false, some job)) ∧
    (job.status ≠ JobService.JobStatus.completed ∧
     job.status ≠ JobService.JobStatus.failed ∧
     job.status ≠ JobService.JobStatus.cancelled →
      JobService.cancel_job (some job) now =
        (true, some { job with status := JobService.JobStatus.cancelled,
                               completed_at := some now })) ∧
    JobService.cancel_job none now = (false, none) := by
  refine ⟨fun h => ?_, fun h => ?_, rfl⟩
  · simp [JobService.cancel_job, h]
  · simp [JobService.cancel_job, h.1, h.2.1, h.2.2]

theorem claim_C7_witness :
    JobService.cancel_job (some JobService.completedJob) 3 =
      (false, some JobService.completedJob) :=
  (claim_C7_amended JobService.completedJob 3).1 (Or.inl rfl)

/-! ## C6 — the promotion status rewrite -/

theorem reSubAux_of_no_match (fuel : Nat) :
    ∀ s : Str, ADRService.hasStatusDraftMatch s = false →
      ADRService.reSubAux fuel s = s := by
  induction fuel with
  | zero => intro s _; rfl
  | succ n ih =>
    intro s h
    match s with
    | [] => rfl
    | c :: rest =>
      rw [ADRService.hasStatusDraftMatch, Bool.or_eq_false_iff] at h
      have hnone : ADRService.statusDraftMatchLen (c :: rest) = none :=
        Option.not_isSome_iff_eq_none.mp (by simp [h.1])
      simp [ADRService.reSubAux, hnone, ih rest h.2]

/-- C6 counterexample: the claim says the rewrite no-ops whenever the
literal text `## Status\n\nDraft` is absent.  `## Status\nDraft` (single
newline) does not contain that literal, yet `re.sub(r"## Status\s+Draft",
...)` matches and rewrites it. -/
theorem claim_C6_counterexample :
    ¬ ("## Status\n\nDraft".toList <:+: ADRService.singleNewlineContent) ∧
    ADRService.reSubStatusDraft ADRService.singleNewlineContent ≠
      ADRService.singleNewlineContent ∧
    ADRService.reSubStatusDraft ADRService.singleNewlineContent =
      "## Status\n\nAccepted".toList := by
  refine ⟨by decide, by decide, by decide⟩

/-- C6 amended: the rewrite is the regex substitution
`re.sub(r"## Status\s+Draft", "## Status\n\nAccepted", content)` — the
pattern is `## Status`, one or more whitespace characters, then `Draft` —
and it leaves the content unchanged exactly when that pattern matches
nowhere (a strictly smaller no-op set than "the literal text is absent"). -/
theorem claim_C6_amended (content : Str)
    (h : ADRService.hasStatusDraftMatch content = false) :
    ADRService.reSubStatusDraft content = content :=
  reSubAux_of_no_match content.length content h

theorem claim_C6_witness :
    ADRService.hasStatusDraftMatch "# hello\n\n## Status\n\nAccepted\n".toList = false ∧
    ADRService.reSubStatusDraft "# hello\n\n## Status\n\nAccepted\n".toList =
      "# hello\n\n## Status\n\nAccepted\n".toList :=
  ⟨by decide, claim_C6_amended "# hello\n\n## Status\n\nAccepted\n".toList (by decide)⟩

/-! ## C1 — compilation outcome when the LLM transport fails -/

/-- C1 counterexample: when the LLM call times out (both endpoint POSTs
raise inside their own handlers), `_call_llm` swallows the exceptions and
returns the original content with an appended availability note, so
`compile_adr` marks the job `completed` — not `failed` — and rewrites the
draft file, contradicting the claim on this concrete input. -/
theorem claim_C1_counterexample :
    ((LLMService.compile_adr LLMService.timeoutWorld (some LLMService.queuedJob)
        LLMService.draftFS).1.map (fun j => j.status) = some "completed".toList) ∧
    ((LLMService.compile_adr LLMService.timeoutWorld (some LLMService.queuedJob)
        LLMService.draftFS).1.map (fun j => j.error_message) = some none) ∧
    lookupFile LLMService.draftFS LLMService.queuedJob.draft_path =
      some "C".toList ∧
    lookupFile (LLMService.compile_adr LLMService.timeoutWorld (some LLMService.queuedJob)
        LLMService.draftFS).2 LLMService.queuedJob.draft_path ≠
      some "C".toList := by
  exact ⟨rfl, rfl, rfl, by decide⟩

/-- C1 amended: the job is marked `failed` with the non-empty error message
`LLM returned empty response`, and the draft is left unchanged, exactly
when `_call_llm` produces a falsy result — `None` (an exception outside the
two per-endpoint handlers) or an empty string.  A transport timeout of the
endpoint POSTs themselves is not such a case: both attempts fail silently,
the original content plus an `LLM enhancement unavailable` note is
returned, and the job completes with the draft rewritten. -/
theorem claim_C1_amended (w : LLMService.LLMWorld) (job : LLMService.CompilationJob)
    (fs : FS) (content : Str)
    (hfile : lookupFile fs job.draft_path = some content)
    (hfalsy : LLMService.call_llm w content = none ∨
              LLMService.call_llm w content = some []) :
    ((LLMService.compile_adr w (some job) fs).1.map (fun j => j.status) =
        some "failed".toList) ∧
    ((LLMService.compile_adr w (some job) fs).1.map (fun j => j.error_message) =
        some (some "LLM returned empty response".toList)) ∧
    (LLMService.compile_adr w (some job) fs).2 = fs := by
  rcases hfalsy with h | h <;> simp [LLMService.compile_adr, hfile, h]

theorem claim_C1_witness :
    lookupFile LLMService.draftFS LLMService.queuedJob.draft_path = some "C".toList ∧
    (LLMService.call_llm LLMService.clientFailWorld "C".toList = none ∨
     LLMService.call_llm LLMService.clientFailWorld "C".toList = some []) ∧
    ((LLMService.compile_adr LLMService.clientFailWorld (some LLMService.queuedJob)
        LLMService.draftFS).1.map (fun j => j.status) = some "failed".toList) ∧
    (LLMService.compile_adr LLMService.clientFailWorld (some LLMService.queuedJob)
        LLMService.draftFS).2 = LLMService.draftFS :=
  ⟨rfl, Or.inl rfl,
   (claim_C1_amended LLMService.clientFailWorld LLMService.queuedJob
      LLMService.draftFS "C".toList rfl (Or.inl rfl)).1,
   (claim_C1_amended LLMService.clientFailWorld LLMService.queuedJob
      LLMService.draftFS "C".toList rfl (Or.inl rfl)).2.2⟩

/-! ## C2 — promotion aborts cleanly on lint failure -/

theorem promote_aborts_on_invalid_lint (hash : Str → Str)
    (st : ADRService.PromoteState) (p : FPath) (content : Str)
    (hfile : lookupFile st.fs p = some content)
    (hinvalid : (ADRService.lint_adr st.fs p).valid = false) :
    ADRService.promote_adr hash st p =
      (Except.error (ADRService.PromoteError.lintFailed
        (ADRService.lint_adr st.fs p).errors), st) := by
  simp [ADRService.promote_adr, hfile, hinvalid]

/-- C2: whenever the draft file exists but its file-based lint result is
invalid, `promote_adr` raises the validation error carrying the full lint
error list and performs no mutation: filesystem (draft file and final
directory), metadata records and audit log are returned exactly as given. -/
theorem claim_C2_promote_no_mutation (hash : Str → Str)
    (st : ADRService.PromoteState) (p : FPath) (content : Str)
    (hfile : lookupFile st.fs p = some content)
    (hinvalid : (ADRService.lint_adr st.fs p).valid = false) :
    ADRService.promote_adr hash st p =
      (Except.error (ADRService.PromoteError.lintFailed
        (ADRService.lint_adr st.fs p).errors), st) :=
  promote_aborts_on_invalid_lint hash st p content hfile hinvalid

theorem claim_C2_witness :
    "Missing required section: Decision".toList ∈
      (ADRService.lint_adr ADRService.draftMissingDecision
        ⟨Dir.draft, "001-x.md".toList⟩).errors ∧
    ADRService.promote_adr (fun _ => []) ADRService.stMissingDecision
        ⟨Dir.draft, "001-x.md".toList⟩ =
      (Except.error (ADRService.PromoteError.lintFailed
        (ADRService.lint_adr ADRService.draftMissingDecision
          ⟨Dir.draft, "001-x.md".toList⟩).errors), ADRService.stMissingDecision) := by
  refine ⟨by decide, claim_C2_promote_no_mutation (fun _ => [])
    ADRService.stMissingDecision ⟨Dir.draft, "001-x.md".toList⟩ "# x".toList
    (by decide) (by decide)⟩

/-! ## C10 — a punctuation-only title yields an unpromotable draft -/

theorem lintContent_invalid_of_bad_name (name : Str)
    (hname : ADRService.filenameMatch name = false) (content : Str) :
    (ADRService.lintContent name content).valid = false := by
  simp [ADRService.lintContent, hname]

/-- C10: slugging the word-character-free title `!!!` yields the empty
slug; `create_draft` on empty directories still succeeds and writes
`001-.md`; that name fails the lint rule `^\d{3}-.+\.md$`, so the file can
never lint clean whatever its content, and promotion of it always aborts
with the lint validation error, mutating nothing. -/
theorem claim_C10_punct_title :
    ADRService.generate_slug ADRService.punctTitle = [] ∧
    ADRService.createDraftNumbers (fun _ => ADRService.punctTitle) 1 =
      ([1], ["001-.md".toList]) ∧
    ADRService.filenameMatch "001-.md".toList = false ∧
    (∀ content : Str,
      (ADRService.lintContent "001-.md".toList content).valid = false) ∧
    (∀ (hash : Str → Str) (st : ADRService.PromoteState) (content : Str),
      lookupFile st.fs ADRService.punctPath = some content →
      ADRService.promote_adr hash st ADRService.punctPath =
        (Except.error (ADRService.PromoteError.lintFailed
          (ADRService.lint_adr st.fs ADRService.punctPath).errors), st)) := by
  refine ⟨by decide, by decide, by decide,
    lintContent_invalid_of_bad_name "001-.md".toList (by decide), ?_⟩
  intro hash st content hfile
  refine promote_aborts_on_invalid_lint hash st ADRService.punctPath content hfile ?_
  have : ADRService.lint_adr st.fs ADRService.punctPath =
      ADRService.lintContent "001-.md".toList content := by
    simp only [ADRService.lint_adr]
    rw [hfile]
    rfl
  rw [this]
  exact lintContent_invalid_of_bad_name "001-.md".toList (by decide) content

theorem claim_C10_witness :
    ADRService.promote_adr (fun _ => [])
        ⟨[(ADRService.punctPath, "# t".toList)], [], []⟩ ADRService.punctPath =
      (Except.error (ADRService.PromoteError.lintFailed
        (ADRService.lint_adr [(ADRService.punctPath, "# t".toList)]
          ADRService.punctPath).errors),
       ⟨[(ADRService.punctPath, "# t".toList)], [], []⟩) :=
  claim_C10_punct_title.2.2.2.2 (fun _ => [])
    ⟨[(ADRService.punctPath, "# t".toList)], [], []⟩ "# t".toList (by decide)

/-! ## C8 — structured-lint length thresholds -/

theorem mem_ite_singleton {α : Type} {c : Prop} [Decidable c] {i j : α} :
    (i ∈ if c then [j] else []) ↔ (c ∧ i = j) := by
  split <;> simp_all

/-- C8 counterexample: the claim measures "non-whitespace characters", but
the code measures `len(text.strip())`, which counts interior whitespace.
`spacedAdr.context` has only 20 non-whitespace characters (fewer than 50),
yet the structured lint emits no context error for it. -/
theorem claim_C8_counterexample :
    nonWhitespaceCount (LintService.spacedAdr.context.getD []) < 50 ∧
    LintService.contextIssue ∉
      LintService.lint_adr (fun _ => false) LintService.spacedAdr := by
  constructor
  · decide
  · decide

/-- C8 amended: the structured lint emits the context error exactly when
the context is null/empty or `len(context.strip())` is below 50, and
likewise for the decision — `strip()` removes leading and trailing
whitespace only, so interior whitespace does count toward the threshold.
This holds for every choice of the passive-voice predicate. -/
theorem claim_C8_amended (passive : Str → Bool) (adr : LintService.ADR) :
    (LintService.contextIssue ∈ LintService.lint_adr passive adr ↔
      (ADRService.strTruthy adr.context = false ∨
       (pyStrip (adr.context.getD [])).length < 50)) ∧
    (LintService.decisionIssue ∈ LintService.lint_adr passive adr ↔
      (ADRService.strTruthy adr.decision = false ∨
       (pyStrip (adr.decision.getD [])).length < 50)) := by
  have nTitleC : LintService.contextIssue ≠
      ⟨"error".toList, "Title must be at least 10 characters long".toList,
       some "title".toList⟩ := by decide
  have nTitleWC : LintService.contextIssue ≠
      ⟨"warning".toList, "Title should be concise (under 100 characters)".toList,
       some "title".toList⟩ := by decide
  have nDecC : LintService.contextIssue ≠ LintService.decisionIssue := by decide
  have nConsC : LintService.contextIssue ≠
      ⟨"warning".toList,
       "Consequences section should describe the impact of the decision".toList,
       some "consequences".toList⟩ := by decide
  have nPassC : LintService.contextIssue ≠
      ⟨"info".toList,
       "Consider using more active voice in the decision section".toList,
       some "decision".toList⟩ := by decide
  have nVagC : ∀ w : Str, LintService.contextIssue ≠
      ⟨"warning".toList,
       "Avoid vague language like \x27".toList ++ w ++ "\x27 - be decisive".toList,
       some "decision".toList⟩ := by
    intro w h
    have h1 : "error".toList = "warning".toList :=
      congrArg LintService.LintIssue.severity h
    exact absurd h1 (by decide)
  have nTitleD : LintService.decisionIssue ≠
      ⟨"error".toList, "Title must be at least 10 characters long".toList,
       some "title".toList⟩ := by decide
  have nTitleWD : LintService.decisionIssue ≠
      ⟨"warning".toList, "Title should be concise (under 100 characters)".toList,
       some "title".toList⟩ := by decide
  have nCtxD : LintService.decisionIssue ≠ LintService.contextIssue := by decide
  have nConsD : LintService.decisionIssue ≠
      ⟨"warning".toList,
       "Consequences section should describe the impact of the decision".toList,
       some "consequences".toList⟩ := by decide
  have nPassD : LintService.decisionIssue ≠
      ⟨"info".toList,
       "Consider using more active voice in the decision section".toList,
       some "decision".toList⟩ := by decide
  have nVagD : ∀ w : Str, LintService.decisionIssue ≠
      ⟨"warning".toList,
       "Avoid vague language like \x27".toList ++ w ++ "\x27 - be decisive".toList,
       some "decision".toList⟩ := by
    intro w h
    have h1 : "error".toList = "warning".toList :=
      congrArg LintService.LintIssue.severity h
    exact absurd h1 (by decide)
  rcases hfv : LintService.firstVague LintService.vagueWords
      ((adr.decision.getD []).map Char.toLower) with _ | w <;>
    constructor <;>
      simp [LintService.lint_adr, hfv, mem_ite_singleton, LintService.contextIssue,
        LintService.decisionIssue, nTitleC, nTitleWC, nDecC, nConsC, nPassC, nVagC,
        nTitleD, nTitleWD, nCtxD, nConsD, nPassD, nVagD,
        Bool.or_eq_true, Bool.not_eq_true, decide_eq_true_eq]

/-! ## C4 — sequential number allocation -/

theorem digit_facts : ∀ d : Nat, d < 10 →
    pyIsDigit (ADRService.digitChar d) = true ∧
    ADRService.charVal (ADRService.digitChar d) = d := by
  decide

theorem format03d_eq_digits {n : Nat} (h : n < 1000) :
    ADRService.format03d n =
      [ADRService.digitChar (n / 100), ADRService.digitChar (n / 10 % 10),
       ADRService.digitChar (n % 10)] := by
  simp [ADRService.format03d, h]

theorem parseNNN_draftFilename {n : Nat} (h : n < 1000) (slug : Str) :
    ADRService.parseNNN (ADRService.draftFilename n slug) = some n := by
  have d1 := digit_facts (n / 100) (by omega)
  have d2 := digit_facts (n / 10 % 10) (by omega)
  have d3 := digit_facts (n % 10) (by omega)
  simp [ADRService.draftFilename, format03d_eq_digits h, ADRService.parseNNN,
        d1.1, d2.1, d3.1, d1.2, d2.2, d3.2]
  omega

theorem parseNNN_draftFilename_1000 (slug : Str) :
    ADRService.parseNNN (ADRService.draftFilename 1000 slug) = none := by
  have h4 : ADRService.format03d 1000 = ['1', '0', '0', '0'] := by decide
  simp [ADRService.draftFilename, h4, ADRService.parseNNN]

theorem draftFilename_md_suffix (n : Nat) (slug : Str) :
    List.isSuffixOf ".md".toList (ADRService.draftFilename n slug) = true := by
  rw [List.isSuffixOf_iff_suffix]
  exact ⟨ADRService.format03d n ++ '-' :: slug, by
    simp [ADRService.draftFilename]⟩

theorem gnan_eq_maxParsed (files : List Str) :
    ADRService.get_next_adr_number [] files = ADRService.maxParsedNumber files + 1 :=
  rfl

theorem maxParsedNumber_cons_some {f : Str} {files : List Str} {i : Nat}
    (hsuf : List.isSuffixOf ".md".toList f = true)
    (hparse : ADRService.parseNNN f = some i) :
    ADRService.maxParsedNumber (f :: files) =
      max i (ADRService.maxParsedNumber files) := by
  have hs : ['.', 'm', 'd'] <:+ f := List.isSuffixOf_iff_suffix.mp hsuf
  simp [ADRService.maxParsedNumber, List.filter_cons, hs, hparse]

theorem maxParsedNumber_cons_none {f : Str} {files : List Str}
    (hparse : ADRService.parseNNN f = none) :
    ADRService.maxParsedNumber (f :: files) = ADRService.maxParsedNumber files := by
  by_cases hs : ['.', 'm', 'd'] <:+ f <;>
    simp [ADRService.maxParsedNumber, List.filter_cons, hs, hparse]

theorem createDraftNumbers_fst_succ (titles : Nat → Str) (k : Nat) :
    (ADRService.createDraftNumbers titles (k + 1)).1 =
      (ADRService.createDraftNumbers titles k).1 ++
        [ADRService.get_next_adr_number []
          (ADRService.createDraftNumbers titles k).2] := by
  rcases hstate : ADRService.createDraftNumbers titles k with ⟨ns, files⟩
  simp [ADRService.createDraftNumbers, hstate]

theorem createDraftNumbers_snd_succ (titles : Nat → Str) (k : Nat) :
    (ADRService.createDraftNumbers titles (k + 1)).2 =
      ADRService.insertFile
        (ADRService.draftFilename
          (ADRService.get_next_adr_number []
            (ADRService.createDraftNumbers titles k).2)
          (ADRService.generate_slug (titles k)))
        (ADRService.createDraftNumbers titles k).2 := by
  rcases hstate : ADRService.createDraftNumbers titles k with ⟨ns, files⟩
  simp [ADRService.createDraftNumbers, hstate]

theorem createDraftNumbers_inv (titles : Nat → Str) :
    ∀ k : Nat, k ≤ 999 →
      (ADRService.createDraftNumbers titles k).1 = List.range' 1 k ∧
      ADRService.maxParsedNumber (ADRService.createDraftNumbers titles k).2 = k ∧
      (∀ f ∈ (ADRService.createDraftNumbers titles k).2,
        ∃ i, 1 ≤ i ∧ i ≤ k ∧ ADRService.parseNNN f = some i) := by
  intro k
  induction k with
  | zero =>
    intro _
    exact ⟨rfl, rfl, by intro f hf; simp [ADRService.createDraftNumbers] at hf⟩
  | succ k ih =>
    intro hk
    obtain ⟨hnum, hmax, hmem⟩ := ih (by omega)
    have hlt : k + 1 < 1000 := by omega
    have hgnan : ADRService.get_next_adr_number []
        (ADRService.createDraftNumbers titles k).2 = k + 1 := by
      rw [gnan_eq_maxParsed, hmax]
    have hnotmem : ADRService.draftFilename (k + 1)
        (ADRService.generate_slug (titles k)) ∉
        (ADRService.createDraftNumbers titles k).2 := by
      intro hin
      obtain ⟨i, _, hik, hp⟩ := hmem _ hin
      rw [parseNNN_draftFilename hlt] at hp
      have := Option.some.inj hp
      omega
    have hsnd : (ADRService.createDraftNumbers titles (k + 1)).2 =
        ADRService.draftFilename (k + 1) (ADRService.generate_slug (titles k)) ::
          (ADRService.createDraftNumbers titles k).2 := by
      rw [createDraftNumbers_snd_succ, hgnan]
      simp [ADRService.insertFile, hnotmem]
    refine ⟨?_, ?_, ?_⟩
    · rw [createDraftNumbers_fst_succ, hgnan, hnum, List.range'_concat]
      simp [Nat.add_comm]
    · rw [hsnd, maxParsedNumber_cons_some (draftFilename_md_suffix _ _)
        (parseNNN_draftFilename hlt _), hmax]
      omega
    · rw [hsnd]
      intro f hf
      rcases List.mem_cons.mp hf with hf | hf
      · exact ⟨k + 1, by omega, le_refl _, hf ▸ parseNNN_draftFilename hlt _⟩
      · obtain ⟨i, h1, h2, hp⟩ := hmem f hf
        exact ⟨i, h1, by omega, hp⟩

theorem createDraftNumbers_eq_range (titles : Nat → Str) (N : Nat) (hN : N ≤ 1000) :
    (ADRService.createDraftNumbers titles N).1 = List.range' 1 N := by
  cases N with
  | zero => rfl
  | succ k =>
    obtain ⟨hnum, hmax, _⟩ := createDraftNumbers_inv titles k (by omega)
    have hgnan : ADRService.get_next_adr_number []
        (ADRService.createDraftNumbers titles k).2 = k + 1 := by
      rw [gnan_eq_maxParsed, hmax]
    rw [createDraftNumbers_fst_succ, hgnan, hnum, List.range'_concat]
    simp [Nat.add_comm]

/-- C4 amended: starting from empty directories, the first 1000 consecutive
single-threaded `create_draft` calls assign exactly the numbers `1..N` in
order (for every `N ≤ 1000`); beyond that the scheme breaks, because file
1000 is written with a four-digit prefix that the three-digit parse regex
no longer recognises. -/
theorem claim_C4_amended (titles : Nat → Str) (N : Nat) (hN : N ≤ 1000) :
    (ADRService.createDraftNumbers titles N).1 = List.range' 1 N :=
  createDraftNumbers_eq_range titles N hN

theorem claim_C4_witness :
    (2 : Nat) ≤ 1000 ∧
    (ADRService.createDraftNumbers (fun _ => "Use X".toList) 2).1 =
      List.range' 1 2 :=
  ⟨by decide, claim_C4_amended (fun _ => "Use X".toList) 2 (by decide)⟩

/-- C4 counterexample: at `N = 1001` the assigned numbers are
`1..1000, 1000` — the 1000th file `1000-….md` no longer matches
`^(\d{3})-`, so the allocator re-assigns 1000, a duplicate; the numbers are
not `{1, …, 1001}` and are not duplicate-free, refuting the claim for this
`N`. -/
theorem claim_C4_counterexample :
    (ADRService.createDraftNumbers ADRService.seqTitles 1001).1 =
      List.range' 1 1000 ++ [1000] ∧
    ¬ (ADRService.createDraftNumbers ADRService.seqTitles 1001).1.Nodup := by
  obtain ⟨hnum, hmax, hmem⟩ :=
    createDraftNumbers_inv ADRService.seqTitles 999 (by omega)
  have hgnan : ADRService.get_next_adr_number []
      (ADRService.createDraftNumbers ADRService.seqTitles 999).2 = 1000 := by
    rw [gnan_eq_maxParsed, hmax]
  have hnotmem : ADRService.draftFilename 1000
      (ADRService.generate_slug (ADRService.seqTitles 999)) ∉
      (ADRService.createDraftNumbers ADRService.seqTitles 999).2 := by
    intro hin
    obtain ⟨i, _, _, hp⟩ := hmem _ hin
    rw [parseNNN_draftFilename_1000] at hp
    exact Option.noConfusion hp
  have hsnd : (ADRService.createDraftNumbers ADRService.seqTitles 1000).2 =
      ADRService.draftFilename 1000
          (ADRService.generate_slug (ADRService.seqTitles 999)) ::
        (ADRService.createDraftNumbers ADRService.seqTitles 999).2 := by
    rw [show (1000 : Nat) = 999 + 1 from rfl, createDraftNumbers_snd_succ, hgnan]
    simp [ADRService.insertFile, hnotmem]
  have hmax1000 : ADRService.maxParsedNumber
      (ADRService.createDraftNumbers ADRService.seqTitles 1000).2 = 999 := by
    rw [hsnd, maxParsedNumber_cons_none (parseNNN_draftFilename_1000 _), hmax]
  have hnum1000 : (ADRService.createDraftNumbers ADRService.seqTitles 1000).1 =
      List.range' 1 1000 :=
    createDraftNumbers_eq_range _ 1000 (by omega)
  have hnum1001 : (ADRService.createDraftNumbers ADRService.seqTitles 1001).1 =
      List.range' 1 1000 ++ [1000] := by
    rw [show (1001 : Nat) = 1000 + 1 from rfl, createDraftNumbers_fst_succ,
      hnum1000, gnan_eq_maxParsed, hmax1000]
  refine ⟨hnum1001, ?_⟩
  rw [hnum1001]
  intro hnd
  rw [List.nodup_append] at hnd
  have h1 : (1000 : Nat) ∈ List.range' 1 1000 := by simp
  have h2 : (1000 : Nat) ∈ [1000] := by simp
  exact hnd.2.2 h1 h2

/-! ## C5 — freshly generated drafts lint clean: character-level lemmas -/

theorem char_toNat_ofNat {n : Nat} (h : n < 55296) : (Char.ofNat n).toNat = n := by
  rw [Char.ofNat, dif_pos (Or.inl (show n < 0xd800 by omega))]
  rfl

theorem pyIsWord_toLower {c : Char} (h : pyIsWord c = true) :
    pyIsWord (Char.toLower c) = true := by
  simp only [Char.toLower]
  split
  case isTrue hu =>
    have ht : (Char.ofNat (c.toNat + 32)).toNat = c.toNat + 32 :=
      char_toNat_ofNat (by omega)
    have h97 : 97 ≤ c.toNat + 32 := by omega
    have h122 : c.toNat + 32 ≤ 122 := by omega
    simp [pyIsWord, pyIsAlpha, ht, h97, h122]
  case isFalse _ => exact h

theorem pyIsWord_toNat {c : Char} (h : pyIsWord c = true) :
    (65 ≤ c.toNat ∧ c.toNat ≤ 90) ∨ (97 ≤ c.toNat ∧ c.toNat ≤ 122) ∨
    (48 ≤ c.toNat ∧ c.toNat ≤ 57) ∨ c.toNat = 95 := by
  simp only [pyIsWord, pyIsAlpha, pyIsDigit, Bool.or_eq_true, Bool.and_eq_true,
    decide_eq_true_eq, beq_iff_eq] at h
  rcases h with ((h | h) | h) | h
  · exact Or.inl h
  · exact Or.inr (Or.inl h)
  · exact Or.inr (Or.inr (Or.inl h))
  · subst h; exact Or.inr (Or.inr (Or.inr rfl))

theorem isDashSpace_toNat {c : Char} (h : ADRService.isDashSpace c = true) :
    c.toNat = 45 ∨ c.toNat = 32 ∨ c.toNat = 9 ∨ c.toNat = 10 ∨ c.toNat = 13 ∨
    c.toNat = 11 ∨ c.toNat = 12 := by
  have hc : c = '-' ∨ c = ' ' ∨ c = '\t' ∨ c = '\n' ∨ c = '\r' ∨
      c = '\x0b' ∨ c = '\x0c' := by
    simp only [ADRService.isDashSpace, pyIsSpace, Bool.or_eq_true, beq_iff_eq] at h
    tauto
  rcases hc with rfl | rfl | rfl | rfl | rfl | rfl | rfl <;> decide

theorem word_not_dashspace {c : Char} (h : pyIsWord c = true) :
    ADRService.isDashSpace c = false := by
  rcases hds : ADRService.isDashSpace c with _ | _
  · rfl
  · have h1 := pyIsWord_toNat h
    have h2 := isDashSpace_toNat hds
    omega

theorem word_ne_newline {c : Char} (h : pyIsWord c = true) : c ≠ '\n' := by
  intro he
  subst he
  exact absurd h (by decide)

/-! ### Slug lemmas -/

theorem collapseDashSpace_mem {c : Char} :
    ∀ {l : Str} {flag : Bool}, c ∈ ADRService.collapseDashSpace flag l →
      c = '-' ∨ (c ∈ l ∧ ADRService.isDashSpace c = false) := by
  intro l
  induction l with
  | nil => intro flag h; simp [ADRService.collapseDashSpace] at h
  | cons x rest ih =>
    intro flag h
    simp only [ADRService.collapseDashSpace] at h
    by_cases hx : ADRService.isDashSpace x = true
    · rw [if_pos hx] at h
      rcases flag with _ | _
      · rw [if_neg (by decide)] at h
        rcases List.mem_cons.mp h with rfl | h'
        · exact Or.inl rfl
        · rcases ih h' with h'' | ⟨hm, hd⟩
          · exact Or.inl h''
          · exact Or.inr ⟨List.mem_cons_of_mem _ hm, hd⟩
      · rcases ih (by simpa using h) with h'' | ⟨hm, hd⟩
        · exact Or.inl h''
        · exact Or.inr ⟨List.mem_cons_of_mem _ hm, hd⟩
    · rw [if_neg hx] at h
      rcases List.mem_cons.mp h with rfl | h'
      · exact Or.inr ⟨List.mem_cons_self _ _, by simpa using hx⟩
      · rcases ih h' with h'' | ⟨hm, hd⟩
        · exact Or.inl h''
        · exact Or.inr ⟨List.mem_cons_of_mem _ hm, hd⟩

theorem collapseDashSpace_keeps {c : Char}
    (hds : ADRService.isDashSpace c = false) :
    ∀ {l : Str} {flag : Bool}, c ∈ l →
      c ∈ ADRService.collapseDashSpace flag l := by
  intro l
  induction l with
  | nil => intro flag h; cases h
  | cons x rest ih =>
    intro flag h
    rcases List.mem_cons.mp h with rfl | hmem
    · simp only [ADRService.collapseDashSpace, hds]
      exact List.mem_cons_self _ _
    · simp only [ADRService.collapseDashSpace]
      split
      · split
        · exact ih hmem
        · exact List.mem_cons_of_mem _ (ih hmem)
      · exact List.mem_cons_of_mem _ (ih hmem)

theorem mem_dropWhile_of_mem {p : Char → Bool} :
    ∀ {l : Str} {c : Char}, c ∈ l → p c = false → c ∈ l.dropWhile p := by
  intro l
  induction l with
  | nil => intro c hc; cases hc
  | cons x rest ih =>
    intro c hc hp
    rw [List.dropWhile_cons]
    split
    case isTrue hx =>
      rcases List.mem_cons.mp hc with rfl | h'
      · rw [hp] at hx; cases hx
      · exact ih h' hp
    case isFalse _ => exact hc

theorem mem_pyStripDash {s : Str} {c : Char} (hc : c ∈ s) (hne : c ≠ '-') :
    c ∈ pyStripDash s := by
  have hp : (c == '-') = false := by
    rw [beq_eq_false_iff_ne]
    exact hne
  unfold pyStripDash
  rw [List.mem_reverse]
  exact mem_dropWhile_of_mem (List.mem_reverse.mpr
    (mem_dropWhile_of_mem hc hp)) hp

theorem pyStripDash_subset {s : Str} {c : Char} (h : c ∈ pyStripDash s) : c ∈ s := by
  unfold pyStripDash at h
  rw [List.mem_reverse] at h
  have h1 := (List.dropWhile_sublist (l := (s.dropWhile (· == '-')).reverse)
    (p := (· == '-'))).subset h
  rw [List.mem_reverse] at h1
  exact (List.dropWhile_sublist (l := s) (p := (· == '-'))).subset h1

theorem generate_slug_no_newline (title : Str) :
    '\n' ∉ ADRService.generate_slug title := by
  intro h
  have h1 := pyStripDash_subset h
  rcases collapseDashSpace_mem h1 with h2 | ⟨_, h2⟩
  · exact absurd h2 (by decide)
  · exact absurd h2 (by decide)

theorem generate_slug_nonempty {title : Str}
    (h : ∃ c ∈ title, pyIsWord c = true) :
    ADRService.generate_slug title ≠ [] := by
  obtain ⟨c, hc, hw⟩ := h
  have hw' : pyIsWord (Char.toLower c) = true := pyIsWord_toLower hw
  have hds : ADRService.isDashSpace (Char.toLower c) = false :=
    word_not_dashspace hw'
  have hkeep : ADRService.keepSlugChar (Char.toLower c) = true := by
    simp [ADRService.keepSlugChar, hw']
  have hmem1 : Char.toLower c ∈
      (title.map Char.toLower).filter ADRService.keepSlugChar :=
    List.mem_filter.mpr ⟨List.mem_map_of_mem _ hc, hkeep⟩
  have hmem2 : Char.toLower c ∈ ADRService.generate_slug title := by
    unfold ADRService.generate_slug
    refine mem_pyStripDash (collapseDashSpace_keeps hds hmem1) ?_
    intro he
    rw [he] at hds
    exact absurd hds (by decide)
  intro hnil
  rw [hnil] at hmem2
  cases hmem2

/-! ### Digits of the decimal representation -/

theorem toDigitsCore_digits :
    ∀ (fuel n : Nat) (ds : List Char), (∀ c ∈ ds, pyIsDigit c = true) →
      ∀ c ∈ Nat.toDigitsCore 10 fuel n ds, pyIsDigit c = true := by
  have hdc : ∀ r : Nat, r < 10 → pyIsDigit (Nat.digitChar r) = true := by decide
  intro fuel
  induction fuel with
  | zero => intro n ds hds; simpa [Nat.toDigitsCore] using hds
  | succ f ih =>
    intro n ds hds
    simp only [Nat.toDigitsCore]
    have hmem : ∀ c ∈ Nat.digitChar (n % 10) :: ds, pyIsDigit c = true := by
      intro c hc
      rcases List.mem_cons.mp hc with rfl | hc'
      · exact hdc _ (Nat.mod_lt _ (by omega))
      · exact hds c hc'
    split
    · exact hmem
    · exact ih _ _ hmem

theorem toDigits10_digits (n : Nat) :
    ∀ c ∈ Nat.toDigits 10 n, pyIsDigit c = true :=
  toDigitsCore_digits (n + 1) n [] (by intro c hc; cases hc)

/-! ### Filename of a generated draft -/

theorem dotPlusMd_append_md :
    ∀ {s : Str}, s ≠ [] → '\n' ∉ s →
      ADRService.dotPlusMd (s ++ ".md".toList) = true := by
  intro s
  induction s with
  | nil => intro hne _; exact absurd rfl hne
  | cons c rest ih =>
    intro _ hnl
    have hc : (c != '\n') = true := by
      simp only [bne_iff_ne, ne_eq]
      intro he
      exact hnl (he ▸ List.mem_cons_self _ _)
    rcases rest with _ | ⟨d, rest'⟩
    · simp [ADRService.dotPlusMd, hc]
      decide
    · have hrec := ih (by simp) (fun hm => hnl (List.mem_cons_of_mem _ hm))
      simp only [List.cons_append, ADRService.dotPlusMd, Bool.and_eq_true,
        Bool.or_eq_true, bne_iff_ne, ne_eq] at hrec ⊢
      exact ⟨by simpa using hc, Or.inr hrec⟩

theorem filenameMatch_draftFilename {n : Nat} (hn : n < 1000) {slug : Str}
    (hne : slug ≠ []) (hnl : '\n' ∉ slug) :
    ADRService.filenameMatch (ADRService.draftFilename n slug) = true := by
  have d1 := digit_facts (n / 100) (by omega)
  have d2 := digit_facts (n / 10 % 10) (by omega)
  have d3 := digit_facts (n % 10) (by omega)
  simp only [ADRService.draftFilename, format03d_eq_digits hn, List.cons_append,
    List.nil_append, ADRService.filenameMatch, d1.1, d2.1, d3.1,
    Bool.and_eq_true, beq_self_eq_true, true_and]
  exact dotPlusMd_append_md hne hnl

/-! ### Infix and scanning lemmas for the status check -/

theorem infix_of_prefix_part {x y : Str} (h : x <+: y) : x <:+: y := by
  obtain ⟨t, rfl⟩ := h
  exact ⟨[], t, by simp⟩

theorem prefix_of_prefix_append {x u v : Str} (h : x <+: u ++ v)
    (hlen : x.length ≤ u.length) : x <+: u := by
  obtain ⟨t, ht⟩ := h
  refine ⟨u.drop x.length, ?_⟩
  have h1 : (u ++ v).take x.length = x := by
    rw [← ht, List.take_append_of_le_length (by simp)]
    simp
  rw [List.take_append_of_le_length hlen] at h1
  calc x ++ u.drop x.length = u.take x.length ++ u.drop x.length := by rw [h1]
    _ = u := List.take_append_drop _ _

theorem hash_count_of_hh_infix {A : Str} (h : "##".toList <:+: A) :
    2 ≤ A.count '#' := by
  have hsub : List.Sublist "##".toList A := h.sublist
  have := hsub.count_le '#'
  simpa using this

theorem statusAt_eq_none {s : Str} (h : ¬ ("## Status".toList <+: s)) :
    ADRService.statusAt s = none := by
  simp only [ADRService.statusAt]
  rw [if_neg (show ¬ (List.isPrefixOf "## Status".toList s = true) from by
    rw [List.isPrefixOf_iff_prefix]; exact h)]

theorem no_early_status {A : Str} (B : Str) (hA : ¬ ("##".toList <:+: A))
    (hlast : A.getLast? = some '\n') :
    ∀ i, i < A.length → ADRService.statusAt (List.drop i (A ++ B)) = none := by
  intro i hi
  apply statusAt_eq_none
  intro hpre
  rw [List.drop_append_of_le_length (by omega)] at hpre
  rcases le_or_lt (i + 9) A.length with h9 | h9
  · have hlen : 9 ≤ (A.drop i).length := by
      simp [List.length_drop]
      omega
    have hpre' : "## Status".toList <+: A.drop i :=
      prefix_of_prefix_append hpre (by simpa using hlen)
    have hh : "##".toList <+: A.drop i :=
      List.IsPrefix.trans (by decide) hpre'
    exact hA ((infix_of_prefix_part hh).trans
      (⟨A.take i, [], by simp⟩ : A.drop i <:+: A))
  · obtain ⟨t, ht⟩ := hpre
    have hAne : A ≠ [] := by
      intro he
      rw [he] at hlast
      cases hlast
    have hAlen : 1 ≤ A.length := by
      cases A with
      | nil => exact absurd rfl hAne
      | cons _ _ => simp
    have hj : A.length - 1 - i < 9 := by omega
    have h1 : ("## Status".toList ++ t)[A.length - 1 - i]? =
        "## Status".toList[A.length - 1 - i]? :=
      List.getElem?_append_left (by simp; omega)
    rw [ht] at h1
    have h2 : (A.drop i ++ B)[A.length - 1 - i]? =
        (A.drop i)[A.length - 1 - i]? :=
      List.getElem?_append_left (by simp [List.length_drop]; omega)
    have h3 : (A.drop i)[A.length - 1 - i]? = A[i + (A.length - 1 - i)]? :=
      List.getElem?_drop A i (A.length - 1 - i)
    have h4 : i + (A.length - 1 - i) = A.length - 1 := by omega
    have h5 : A[A.length - 1]? = some '\n' := by
      rw [← List.getLast?_eq_getElem?]
      exact hlast
    have h6 : "## Status".toList[A.length - 1 - i]? = some '\n' := by
      rw [← h1, h2, h3, h4, h5]
    have hno : ∀ j, j < 9 → "## Status".toList[j]? ≠ some '\n' := by decide
    exact hno _ hj h6

theorem statusSearch_append {B : Str} :
    ∀ {A : Str},
      (∀ i, i < A.length → ADRService.statusAt (List.drop i (A ++ B)) = none) →
      ADRService.statusSearch (A ++ B) = ADRService.statusSearch B := by
  intro A
  induction A with
  | nil => intro _; rfl
  | cons a A ih =>
    intro h
    have h0 : ADRService.statusAt (a :: (A ++ B)) = none := h 0 (by simp)
    rw [List.cons_append, ADRService.statusSearch, h0]
    exact ih (fun i hi => by
      have := h (i + 1) (by simp; omega)
      simpa using this)

theorem statusAt_draft (Y : Str) :
    ADRService.statusAt ("## Status\n\nDraft\n\n".toList ++ Y) =
      some "Draft".toList := rfl

theorem statusSearch_draft (Y : Str) :
    ADRService.statusSearch ("## Status\n\nDraft\n\n".toList ++ Y) =
      some "Draft".toList := rfl

theorem getLast?_append_right {u v : Str} (hv : v ≠ []) :
    (u ++ v).getLast? = v.getLast? :=
  List.getLast?_append_of_ne_nil _ hv

theorem generated_draft_lints_clean (n : Nat) (title problem context date : Str)
    (options decision_hint : Str) (references : List Str)
    (hn2 : n ≤ 999)
    (hword : ∃ c ∈ title, pyIsWord c = true)
    (hhash : '#' ∉ title)
    (hdate : ∀ c ∈ date, pyIsDigit c = true ∨ c = '-')
    (hopt : options ≠ []) (hhint : decision_hint ≠ []) (href : references ≠ []) :
    (ADRService.lintContent
        (ADRService.draftFilename n (ADRService.generate_slug title))
        (ADRService.generate_madr_content n title problem context
          (some options) (some decision_hint) (some references) date)).errors = [] ∧
    (ADRService.lintContent
        (ADRService.draftFilename n (ADRService.generate_slug title))
        (ADRService.generate_madr_content n title problem context
          (some options) (some decision_hint) (some references) date)).valid =
      true := by
  have hoptE : options.isEmpty = false := by
    cases options with
    | nil => exact absurd rfl hopt
    | cons _ _ => rfl
  have hhintE : decision_hint.isEmpty = false := by
    cases decision_hint with
    | nil => exact absurd rfl hhint
    | cons _ _ => rfl
  have hrefE : references.isEmpty = false := by
    cases references with
    | nil => exact absurd rfl href
    | cons _ _ => rfl
  set A : Str := "# ".toList ++ (Nat.toDigits 10 n ++ (". ".toList ++ (title ++
    ("\n\nDate: ".toList ++ (date ++ "\n\n".toList))))) with hA
  set REFS : Str :=
    List.intercalate "\n".toList (references.map fun r => "* ".toList ++ r)
    with hREFS
  set Y : Str := "## Context\n\n".toList ++ (context ++
    ("\n\n## Problem Statement\n\n".toList ++ (problem ++
    ("\n\n## Decision Drivers\n\n* Maintainability\n* Performance\n* Security\n* Developer experience\n\n## Considered Options\n\n".toList ++
    (options ++ ("\n\n".toList ++ ("## Decision Outcome\n\n".toList ++
    (decision_hint ++ ("\n\n".toList ++
    ("### Consequences\n\n* Good: [To be filled]\n* Bad: [To be filled]\n* Neutral: [To be filled]\n\n## Pros and Cons of the Options\n\n### Option 1\n\n* Good: [To be filled]\n* Bad: [To be filled]\n\n## More Information\n\n".toList ++
    (REFS ++ "\n\n## References\n\n[Links to related ADRs, documentation, or external resources]\n".toList))))))))))) with hY
  have hcontent : ADRService.generate_madr_content n title problem context
      (some options) (some decision_hint) (some references) date =
      A ++ ("## Status\n\nDraft\n\n".toList ++ Y) := by
    rw [hA, hY, hREFS]
    simp [ADRService.generate_madr_content, hoptE, hhintE, hrefE,
      List.append_assoc]
  have hcD : (Nat.toDigits 10 n).count '#' = 0 :=
    List.count_eq_zero.mpr (fun h => absurd (toDigits10_digits n '#' h) (by decide))
  have hcT : title.count '#' = 0 := List.count_eq_zero.mpr hhash
  have hcDate : date.count '#' = 0 := by
    refine List.count_eq_zero.mpr (fun h => ?_)
    rcases hdate '#' h with hd | hd
    · exact absurd hd (by decide)
    · exact absurd hd (by decide)
  have hc1 : List.count '#' "# ".toList = 1 := by decide
  have hc2 : List.count '#' ". ".toList = 0 := by decide
  have hc3 : List.count '#' "\n\nDate: ".toList = 0 := by decide
  have hc4 : List.count '#' "\n\n".toList = 0 := by decide
  have hcountA : A.count '#' = 1 := by
    rw [hA]
    simp only [List.count_append]
    rw [hc1, hc2, hc3, hc4, hcD, hcT, hcDate]
  have hnoHH : ¬ ("##".toList <:+: A) := by
    intro h
    have h2 := hash_count_of_hh_infix h
    rw [hcountA] at h2
    omega
  have hlastA : A.getLast? = some '\n' := by
    rw [hA, getLast?_append_right (by simp), getLast?_append_right (by simp),
      getLast?_append_right (by simp), getLast?_append_right (by simp),
      getLast?_append_right (by simp), getLast?_append_right (by simp)]
    rfl
  have hstatus : ADRService.statusSearch
      (ADRService.generate_madr_content n title problem context
        (some options) (some decision_hint) (some references) date) =
      some "Draft".toList := by
    rw [hcontent, statusSearch_append (no_early_status _ hnoHH hlastA)]
    exact statusSearch_draft Y
  have h8 : "## Status".toList <:+:
      ADRService.generate_madr_content n title problem context
        (some options) (some decision_hint) (some references) date := by
    rw [hcontent]
    exact infix_append_right A (infix_append_left Y (by decide))
  have h9 : "## Context".toList <:+:
      ADRService.generate_madr_content n title problem context
        (some options) (some decision_hint) (some references) date := by
    rw [hcontent, hY]
    exact infix_append_right _ (infix_append_right _ (infix_append_left _
      (by decide)))
  have h10 : "## Decision".toList <:+:
      ADRService.generate_madr_content n title problem context
        (some options) (some decision_hint) (some references) date := by
    rw [hcontent, hY]
    exact infix_append_right _ (infix_append_right _ (infix_append_right _
      (infix_append_right _ (infix_append_right _ (infix_append_right _
        (infix_append_left _ (by decide)))))))
  have h11 : "## Consequences".toList <:+:
      ADRService.generate_madr_content n title problem context
        (some options) (some decision_hint) (some references) date := by
    rw [hcontent, hY]
    exact infix_append_right _ (infix_append_right _ (infix_append_right _
      (infix_append_right _ (infix_append_right _ (infix_append_right _
        (infix_append_right _ (infix_append_right _ (infix_append_right _
          (infix_append_right _ (infix_append_right _ (infix_append_right _
            (infix_append_left _ (by decide)))))))))))))
  have h12 : "## References".toList <:+:
      ADRService.generate_madr_content n title problem context
        (some options) (some decision_hint) (some references) date := by
    rw [hcontent, hY]
    exact infix_append_right _ (infix_append_right _ (infix_append_right _
      (infix_append_right _ (infix_append_right _ (infix_append_right _
        (infix_append_right _ (infix_append_right _ (infix_append_right _
          (infix_append_right _ (infix_append_right _ (infix_append_right _
            (infix_append_right _ (infix_append_right _ (by decide))))))))))))))
  have p1 : ADRService.pyInStr ("## ".toList ++ "Status".toList)
      (ADRService.generate_madr_content n title problem context
        (some options) (some decision_hint) (some references) date) = true :=
    pyInStr_eq_true.mpr h8
  have p2 : ADRService.pyInStr ("## ".toList ++ "Context".toList)
      (ADRService.generate_madr_content n title problem context
        (some options) (some decision_hint) (some references) date) = true :=
    pyInStr_eq_true.mpr h9
  have p3 : ADRService.pyInStr ("## ".toList ++ "Decision".toList)
      (ADRService.generate_madr_content n title problem context
        (some options) (some decision_hint) (some references) date) = true :=
    pyInStr_eq_true.mpr h10
  have p4 : ADRService.pyInStr ("## ".toList ++ "Consequences".toList)
      (ADRService.generate_madr_content n title problem context
        (some options) (some decision_hint) (some references) date) = true :=
    pyInStr_eq_true.mpr h11
  have p5 : ADRService.pyInStr ("## ".toList ++ "References".toList)
      (ADRService.generate_madr_content n title problem context
        (some options) (some decision_hint) (some references) date) = true :=
    pyInStr_eq_true.mpr h12
  have hsec : ADRService.sectionErrors
      (ADRService.generate_madr_content n title problem context
        (some options) (some decision_hint) (some references) date) = [] := by
    simp only [ADRService.sectionErrors, ADRService.requiredSections,
      List.filter_cons, List.filter_nil, p1, p2, p3, p4, p5, Bool.not_true,
      Bool.false_eq_true, if_false, List.map_nil]
  have hfname : ADRService.filenameMatch
      (ADRService.draftFilename n (ADRService.generate_slug title)) = true :=
    filenameMatch_draftFilename (by omega) (generate_slug_nonempty hword)
      (generate_slug_no_newline title)
  have herr : (ADRService.lintContent
      (ADRService.draftFilename n (ADRService.generate_slug title))
      (ADRService.generate_madr_content n title problem context
        (some options) (some decision_hint) (some references) date)).errors =
      [] := by
    simp only [ADRService.lintContent]
    rw [if_pos hfname, hsec, hstatus]
    simp [ADRService.allowedStatus]
  refine ⟨herr, ?_⟩
  have hval : (ADRService.lintContent
      (ADRService.draftFilename n (ADRService.generate_slug title))
      (ADRService.generate_madr_content n title problem context
        (some options) (some decision_hint) (some references) date)).valid =
      (ADRService.lintContent
      (ADRService.draftFilename n (ADRService.generate_slug title))
      (ADRService.generate_madr_content n title problem context
        (some options) (some decision_hint) (some references) date)).errors.isEmpty := by
    simp only [ADRService.lintContent]
  rw [hval, herr]
  rfl

/-- C5 amended: for every ADR number up to 999 and every title that contains
a word character (so its slug is non-empty) and no `#` character, the
document generated by the template renderer with all optional fields
populated, under its allocator-style filename `NNN-slug.md` and with the
digit/hyphen date that `strftime` produces, passes the file-based lint with
zero errors.  (Titles embedding a `## Status`-shaped line break the status
check, and numbers past 999 break the filename rule — see the
counterexample.) -/
theorem claim_C5_amended (n : Nat) (title problem context date : Str)
    (options decision_hint : Str) (references : List Str)
    (hn1 : 1 ≤ n) (hn2 : n ≤ 999)
    (hword : ∃ c ∈ title, pyIsWord c = true)
    (hhash : '#' ∉ title)
    (hdate : ∀ c ∈ date, pyIsDigit c = true ∨ c = '-')
    (hopt : options ≠ []) (hhint : decision_hint ≠ []) (href : references ≠ []) :
    (ADRService.lintContent
        (ADRService.draftFilename n (ADRService.generate_slug title))
        (ADRService.generate_madr_content n title problem context
          (some options) (some decision_hint) (some references) date)).errors = [] ∧
    (ADRService.lintContent
        (ADRService.draftFilename n (ADRService.generate_slug title))
        (ADRService.generate_madr_content n title problem context
          (some options) (some decision_hint) (some references) date)).valid =
      true :=
  generated_draft_lints_clean n title problem context date options decision_hint
    references hn2 hword hhash hdate hopt hhint href

theorem claim_C5_witness :
    (ADRService.lintContent
        (ADRService.draftFilename 1 (ADRService.generate_slug "Use X".toList))
        (ADRService.generate_madr_content 1 "Use X".toList "p".toList "c".toList
          (some "* A".toList) (some "do A".toList) (some ["r".toList])
          "2025-01-01".toList)).errors = [] ∧
    (ADRService.lintContent
        (ADRService.draftFilename 1 (ADRService.generate_slug "Use X".toList))
        (ADRService.generate_madr_content 1 "Use X".toList "p".toList "c".toList
          (some "* A".toList) (some "do A".toList) (some ["r".toList])
          "2025-01-01".toList)).valid = true :=
  claim_C5_amended 1 "Use X".toList "p".toList "c".toList "2025-01-01".toList
    "* A".toList "do A".toList ["r".toList] (by decide) (by decide) (by decide)
    (by decide) (by decide) (by decide) (by decide) (by decide)

/-- C5 counterexample: the title `A ## Status Rejected` contains word
characters, yet the generated document renders the title before the real
Status section, so `re.search(r"## Status\s+(\w+)", …)` finds `Rejected`
first and the lint reports `Invalid status: Rejected` — the round trip does
not yield zero errors for every well-formed title. -/
theorem claim_C5_counterexample :
    (∃ c ∈ ADRService.injectedTitle, pyIsWord c = true) ∧
    (ADRService.lintContent
        (ADRService.draftFilename 1
          (ADRService.generate_slug ADRService.injectedTitle))
        (ADRService.generate_madr_content 1 ADRService.injectedTitle
          "p".toList "c".toList (some "* A".toList) (some "do A".toList)
          (some ["r".toList]) "2025-01-01".toList)).errors =
      ["Invalid status: Rejected".toList] := by
  constructor
  · decide
  · decide
